import Mathlib

/-!
# Verification of the Storacha account/space/content store

Shallow embedding of `src/apps/dao-dapp/src/stores/useStorachaStore.ts`
(a zustand store) together with the record types of
`src/apps/dao-dapp/src/types/storacha.ts`.

Each store operation is a pure state transformer.  The mock provider calls
in the source are deterministic (they cannot reject), so the executed path
of each async action is a total function; provider-issued identifiers
(`account-${Date.now()}` and the like) become explicit parameters.  The
`catch` branches that exist in the source are embedded as separate
`...Catch` functions taking the extracted error message.
-/

/-- `StorachaAccount` from `types/storacha.ts`: `{ id: string; email: string }`. -/
structure StorachaAccount where
  id : String
  email : String
deriving DecidableEq, Repr

/-- `StorachaSpace` from `types/storacha.ts`: `{ id: string; name: string }`. -/
structure StorachaSpace where
  id : String
  name : String
deriving DecidableEq, Repr

/-- `StorachaContent` from `types/storacha.ts`:
`{ id: string; name: string; cid?: string; size?: number; type?: string }`. -/
structure StorachaContent where
  id : String
  name : String
  cid : Option String
  size : Option Nat
  type : Option String
deriving DecidableEq, Repr

/-- The part of a browser `File` the store reads: `name`, `size`, `type`. -/
structure FileData where
  name : String
  size : Nat
  type : String
deriving DecidableEq, Repr

/-- A JavaScript object used as a string-keyed map
(`Record<string, StorachaContent[]>`), embedded as an association list
in insertion order, with at most one entry per key (as holds for JS objects). -/
abbrev ContentsMap := List (String × List StorachaContent)

/-- Key lookup `m[k]` on a JS object: the entry for `k`, if present. -/
def recGet (m : ContentsMap) (k : String) : Option (List StorachaContent) :=
  (m.find? (fun p => p.1 == k)).map (fun p => p.2)

/-- Key update `{ ...m, [k]: v }` on a JS object: replaces the value at `k`
in place if the key exists, otherwise appends the new key at the end. -/
def recSet (m : ContentsMap) (k : String) (v : List StorachaContent) : ContentsMap :=
  if m.any (fun p => p.1 == k) then
    m.map (fun p => if p.1 == k then (k, v) else p)
  else
    m ++ [(k, v)]

/-- `delete m[k]` on a JS object: drops the entry for `k`. -/
def recDelete (m : ContentsMap) (k : String) : ContentsMap :=
  m.filter (fun p => p.1 != k)

/-- The state fields of the `StorachaStore` interface. -/
structure StorachaState where
  currentAccount : Option StorachaAccount
  isAuthenticated : Bool
  accounts : List StorachaAccount
  isLoading : Bool
  error : Option String
  spaces : List StorachaSpace
  selectedSpace : Option StorachaSpace
  isLoadingSpaces : Bool
  spaceContents : ContentsMap
  isLoadingContents : Bool
deriving DecidableEq, Repr

/-- The `initialState` object of the source. -/
def initialState : StorachaState where
  currentAccount := none
  isAuthenticated := false
  accounts := []
  isLoading := false
  error := none
  spaces := []
  selectedSpace := none
  isLoadingSpaces := false
  spaceContents := []
  isLoadingContents := false

/-- `login(email)`, the executed (success) path: sets loading and clears the
error, builds the mock account `{ id: genId, email }` (in the source
`genId` is `account-${Date.now()}`), then sets it current, marks
authenticated, appends it to `accounts` unless the id is already present,
and clears loading and error. -/
def login (s : StorachaState) (email genId : String) : StorachaState :=
  let s1 := { s with isLoading := true, error := none }
  let account : StorachaAccount := { id := genId, email := email }
  { s1 with
    currentAccount := some account
    isAuthenticated := true
    accounts :=
      if s1.accounts.any (fun a => a.id == account.id) then s1.accounts
      else s1.accounts ++ [account]
    isLoading := false
    error := none }

/-- The `catch` branch of `login`: clears loading, records the message
(net effect of the initial `set` followed by the `catch` `set`). -/
def loginCatch (s : StorachaState) (msg : String) : StorachaState :=
  { s with isLoading := false, error := some msg }

/-- `logout()`: clears current account, authenticated flag, selection,
spaces and contents. -/
def logout (s : StorachaState) : StorachaState :=
  { s with
    currentAccount := none
    isAuthenticated := false
    selectedSpace := none
    spaces := []
    spaceContents := [] }

/-- `fetchSpaces()`: no-account guard records `'No account selected'`;
otherwise sets the spaces-loading flag, clears the error, and the mock
listing replaces `spaces` with `[]` and clears the flag. -/
def fetchSpaces (s : StorachaState) : StorachaState :=
  match s.currentAccount with
  | none => { s with error := some "No account selected" }
  | some _ =>
    let s1 := { s with isLoadingSpaces := true, error := none }
    { s1 with spaces := [], isLoadingSpaces := false }

/-- `switchAccount(accountId)`: if no account in `accounts` has the id,
records `'Account not found'` and returns; otherwise sets it current,
marks authenticated, clears selection/spaces/contents, then awaits
`fetchSpaces()` on the updated state. -/
def switchAccount (s : StorachaState) (accountId : String) : StorachaState :=
  match s.accounts.find? (fun a => a.id == accountId) with
  | none => { s with error := some "Account not found" }
  | some account =>
    fetchSpaces
      { s with
        currentAccount := some account
        isAuthenticated := true
        selectedSpace := none
        spaces := []
        spaceContents := [] }

/-- `addAccount(account)`: appends unless an account with the same id exists. -/
def addAccount (s : StorachaState) (account : StorachaAccount) : StorachaState :=
  { s with
    accounts :=
      if s.accounts.any (fun a => a.id == account.id) then s.accounts
      else s.accounts ++ [account] }

/-- `removeAccount(accountId)`: filters the id out of `accounts`; when the
removed id was the current account, also clears current account,
authenticated flag, selection, spaces and contents. -/
def removeAccount (s : StorachaState) (accountId : String) : StorachaState :=
  let newAccounts := s.accounts.filter (fun a => a.id != accountId)
  let isCurrentAccount :=
    match s.currentAccount with
    | some a => a.id == accountId
    | none => false
  { s with
    accounts := newAccounts
    currentAccount := if isCurrentAccount then none else s.currentAccount
    isAuthenticated := if isCurrentAccount then false else s.isAuthenticated
    selectedSpace := if isCurrentAccount then none else s.selectedSpace
    spaces := if isCurrentAccount then [] else s.spaces
    spaceContents := if isCurrentAccount then [] else s.spaceContents }

/-- `createSpace(name)`, executed path: no-account guard records
`'No account selected'`; otherwise sets the spaces-loading flag, clears the
error, appends the mock space `{ id: genId, name }` (in the source `genId`
is `space-${Date.now()}`) and clears the flag. -/
def createSpace (s : StorachaState) (name genId : String) : StorachaState :=
  match s.currentAccount with
  | none => { s with error := some "No account selected" }
  | some _ =>
    let s1 := { s with isLoadingSpaces := true, error := none }
    { s1 with
      spaces := s1.spaces ++ [{ id := genId, name := name }]
      isLoadingSpaces := false }

/-- `deleteSpace(spaceId)`, executed path: sets the spaces-loading flag and
clears the error (there is no account guard), then filters the space out,
deletes its `spaceContents` key, clears the selection when the deleted
space was selected, and clears the flag. -/
def deleteSpace (s : StorachaState) (spaceId : String) : StorachaState :=
  let s1 := { s with isLoadingSpaces := true, error := none }
  { s1 with
    spaces := s1.spaces.filter (fun sp => sp.id != spaceId)
    selectedSpace :=
      match s1.selectedSpace with
      | some sp => if sp.id == spaceId then none else some sp
      | none => none
    spaceContents := recDelete s1.spaceContents spaceId
    isLoadingSpaces := false }

/-- The `catch` branch shared in shape by `fetchSpaces`, `createSpace` and
`deleteSpace`: clears the spaces-loading flag and records the message. -/
def spacesCatch (s : StorachaState) (msg : String) : StorachaState :=
  { s with isLoadingSpaces := false, error := some msg }

/-- `fetchSpaceContents(spaceId)`, executed path: sets the contents-loading
flag, clears the error, stores the mock listing `[]` under the space key
and clears the flag. -/
def fetchSpaceContents (s : StorachaState) (spaceId : String) : StorachaState :=
  let s1 := { s with isLoadingContents := true, error := none }
  { s1 with
    spaceContents := recSet s1.spaceContents spaceId []
    isLoadingContents := false }

/-- `selectSpace(space)`: sets the selection; a non-null selection
immediately triggers `fetchSpaceContents(space.id)` on the updated state. -/
def selectSpace (s : StorachaState) (space : Option StorachaSpace) : StorachaState :=
  let s1 := { s with selectedSpace := space }
  match space with
  | some sp => fetchSpaceContents s1 sp.id
  | none => s1

/-- `uploadToSpace(spaceId, file)`, executed path: sets the contents-loading
flag, clears the error, appends the mock content
`{ id: genId, name: file.name, size: file.size, type: file.type }`
(no `cid`; in the source `genId` is `content-${Date.now()}`) to the space's
list (defaulting to `[]` when the key is absent) and clears the flag. -/
def uploadToSpace (s : StorachaState) (spaceId : String) (file : FileData)
    (genId : String) : StorachaState :=
  let s1 := { s with isLoadingContents := true, error := none }
  let newContent : StorachaContent :=
    { id := genId, name := file.name, cid := none
      size := some file.size, type := some file.type }
  { s1 with
    spaceContents :=
      recSet s1.spaceContents spaceId
        ((recGet s1.spaceContents spaceId).getD [] ++ [newContent])
    isLoadingContents := false }

/-- `deleteFromSpace(spaceId, contentId)`, executed path: sets the
contents-loading flag, clears the error, filters the content id out of the
space's list (defaulting to `[]`) and clears the flag. -/
def deleteFromSpace (s : StorachaState) (spaceId contentId : String) : StorachaState :=
  let s1 := { s with isLoadingContents := true, error := none }
  { s1 with
    spaceContents :=
      recSet s1.spaceContents spaceId
        (((recGet s1.spaceContents spaceId).getD []).filter
          (fun c => c.id != contentId))
    isLoadingContents := false }

/-- The `catch` branch shared in shape by `fetchSpaceContents`,
`uploadToSpace` and `deleteFromSpace`: clears the contents-loading flag and
records the message. -/
def contentsCatch (s : StorachaState) (msg : String) : StorachaState :=
  { s with isLoadingContents := false, error := some msg }

/-- `clearError()`: clears the shared error slot. -/
def clearError (s : StorachaState) : StorachaState :=
  { s with error := none }

/-- `reset()`: restores `initialState`. -/
def reset (_s : StorachaState) : StorachaState :=
  initialState

/-- One completed store operation, as an element of a trace.  Each of the
fourteen exported actions appears with its inputs; provider-generated
identifiers are inputs of the trace.  The unreachable-in-the-mock `catch`
branches of the async actions are also included (`loginErr`, `spacesErr`,
`contentsErr`), so traces cover every completion the source can exhibit. -/
inductive StoreAction where
  | actLogin (email genId : String)
  | actLoginErr (msg : String)
  | actLogout
  | actSwitchAccount (accountId : String)
  | actAddAccount (account : StorachaAccount)
  | actRemoveAccount (accountId : String)
  | actFetchSpaces
  | actCreateSpace (name genId : String)
  | actDeleteSpace (spaceId : String)
  | actSpacesErr (msg : String)
  | actSelectSpace (space : Option StorachaSpace)
  | actFetchSpaceContents (spaceId : String)
  | actUploadToSpace (spaceId : String) (file : FileData) (genId : String)
  | actDeleteFromSpace (spaceId contentId : String)
  | actContentsErr (msg : String)
  | actClearError
  | actReset
deriving Repr

/-- The state after a completed action. -/
def step (s : StorachaState) : StoreAction → StorachaState
  | .actLogin email genId => login s email genId
  | .actLoginErr msg => loginCatch s msg
  | .actLogout => logout s
  | .actSwitchAccount accountId => switchAccount s accountId
  | .actAddAccount account => addAccount s account
  | .actRemoveAccount accountId => removeAccount s accountId
  | .actFetchSpaces => fetchSpaces s
  | .actCreateSpace name genId => createSpace s name genId
  | .actDeleteSpace spaceId => deleteSpace s spaceId
  | .actSpacesErr msg => spacesCatch s msg
  | .actSelectSpace space => selectSpace s space
  | .actFetchSpaceContents spaceId => fetchSpaceContents s spaceId
  | .actUploadToSpace spaceId file genId => uploadToSpace s spaceId file genId
  | .actDeleteFromSpace spaceId contentId => deleteFromSpace s spaceId contentId
  | .actContentsErr msg => contentsCatch s msg
  | .actClearError => clearError s
  | .actReset => reset s

/-- The state reached from `initialState` by a trace of completed actions. -/
def run (acts : List StoreAction) : StorachaState :=
  acts.foldl step initialState

/-- The authentication invariant: the flag mirrors presence of an account. -/
def authInv (s : StorachaState) : Prop :=
  s.isAuthenticated = s.currentAccount.isSome

lemma authInv_step (s : StorachaState) (a : StoreAction) (h : authInv s) :
    authInv (step s a) := by
  cases a with
  | actLogin email genId => simp [step, login, authInv]
  | actLoginErr msg => simpa [step, loginCatch, authInv] using h
  | actLogout => simp [step, logout, authInv]
  | actSwitchAccount accountId =>
    simp only [step, switchAccount]
    cases hf : s.accounts.find? (fun a => a.id == accountId) with
    | none => simpa [authInv] using h
    | some account => simp [fetchSpaces, authInv]
  | actAddAccount account => simpa [step, addAccount, authInv] using h
  | actRemoveAccount accountId =>
    simp only [step, removeAccount]
    cases hc : s.currentAccount with
    | none => simpa [authInv, hc] using h
    | some a =>
      by_cases hid : a.id == accountId
      · simp [authInv, hc, hid]
      · simp only [authInv, hc, hid] at h ⊢
        simpa using h
  | actFetchSpaces =>
    simp only [step, fetchSpaces]
    cases hc : s.currentAccount with
    | none => simpa [authInv, hc] using h
    | some a => simpa [authInv, hc] using h
  | actCreateSpace name genId =>
    simp only [step, createSpace]
    cases hc : s.currentAccount with
    | none => simpa [authInv, hc] using h
    | some a => simpa [authInv, hc] using h
  | actDeleteSpace spaceId => simpa [step, deleteSpace, authInv] using h
  | actSpacesErr msg => simpa [step, spacesCatch, authInv] using h
  | actSelectSpace space =>
    cases space with
    | none => simpa [step, selectSpace, authInv] using h
    | some sp => simpa [step, selectSpace, fetchSpaceContents, authInv] using h
  | actFetchSpaceContents spaceId =>
    simpa [step, fetchSpaceContents, authInv] using h
  | actUploadToSpace spaceId file genId =>
    simpa [step, uploadToSpace, authInv] using h
  | actDeleteFromSpace spaceId contentId =>
    simpa [step, deleteFromSpace, authInv] using h
  | actContentsErr msg => simpa [step, contentsCatch, authInv] using h
  | actClearError => simpa [step, clearError, authInv] using h
  | actReset => simp [step, reset, initialState, authInv]

lemma authInv_foldl (acts : List StoreAction) :
    ∀ s : StorachaState, authInv s → authInv (acts.foldl step s) := by
  induction acts with
  | nil => intro s h; simpa using h
  | cons a rest ih =>
    intro s h
    exact ih (step s a) (authInv_step s a h)

/-- C1: in every state reachable from the initial state by any sequence of
completed store operations, `isAuthenticated` is `true` exactly when
`currentAccount` is non-null. -/
theorem auth_flag_iff_account (acts : List StoreAction) :
    (run acts).isAuthenticated = (run acts).currentAccount.isSome :=
  authInv_foldl acts initialState rfl

/-- A sequence of `addAccount` calls, applied in order. -/
def addAll (calls : List StorachaAccount) (s : StorachaState) : StorachaState :=
  calls.foldl addAccount s

lemma countP_le_one_addAccount (s : StorachaState) (acc : StorachaAccount)
    (X : String) (h : s.accounts.countP (fun a => a.id == X) ≤ 1) :
    (addAccount s acc).accounts.countP (fun a => a.id == X) ≤ 1 := by
  simp only [addAccount]
  by_cases hany : s.accounts.any (fun a => a.id == acc.id)
  · simpa [hany] using h
  · simp only [hany]
    rw [if_neg (by simp [hany]), List.countP_append]
    by_cases hx : acc.id = X
    · have hzero : s.accounts.countP (fun a => a.id == X) = 0 := by
        rw [List.countP_eq_zero]
        intro a ha hcontra
        refine hany (List.any_eq_true.mpr ⟨a, ha, ?_⟩)
        have haX : a.id = X := by simpa using hcontra
        simp [haX, hx]
      simp [hzero, List.countP_cons, hx]
    · have : List.countP (fun a => a.id == X) [acc] = 0 := by
        simp [List.countP_cons, hx]
      omega

lemma mem_ids_addAccount (s : StorachaState) (acc : StorachaAccount) (X : String) :
    X ∈ (addAccount s acc).accounts.map (fun a => a.id) ↔
      X ∈ s.accounts.map (fun a => a.id) ∨ X = acc.id := by
  simp only [addAccount]
  by_cases hany : s.accounts.any (fun a => a.id == acc.id)
  · rw [if_pos (by simpa using hany)]
    constructor
    · exact fun h => Or.inl h
    · rintro (h | rfl)
      · exact h
      · obtain ⟨a, ha, hid⟩ := List.any_eq_true.mp hany
        exact List.mem_map.mpr ⟨a, ha, by simpa using hid⟩
  · rw [if_neg (by simpa using hany), List.map_append]
    simp [or_comm, eq_comm]

lemma addAll_countP_le_one (calls : List StorachaAccount) :
    ∀ s : StorachaState,
      (∀ X, s.accounts.countP (fun a => a.id == X) ≤ 1) →
      ∀ X, (addAll calls s).accounts.countP (fun a => a.id == X) ≤ 1 := by
  induction calls with
  | nil => intro s h X; exact h X
  | cons c rest ih =>
    intro s h X
    exact ih (addAccount s c) (fun Y => countP_le_one_addAccount s c Y (h Y)) X

lemma addAll_mem_ids (calls : List StorachaAccount) :
    ∀ (s : StorachaState) (X : String),
      X ∈ (addAll calls s).accounts.map (fun a => a.id) ↔
        X ∈ s.accounts.map (fun a => a.id) ∨ X ∈ calls.map (fun a => a.id) := by
  induction calls with
  | nil => intro s X; simp [addAll]
  | cons c rest ih =>
    intro s X
    have h1 := ih (addAccount s c) X
    rw [show addAll (c :: rest) s = addAll rest (addAccount s c) from rfl, h1,
      mem_ids_addAccount]
    simp [or_assoc, or_comm, or_left_comm]

/-- C3: starting from the initial state, after any sequence of `addAccount`
calls the accounts list holds exactly one entry for each identifier that
occurred in the calls; and re-adding an account whose identifier is already
present leaves the state unchanged. -/
theorem addAccount_unique_and_idempotent :
    (∀ (calls : List StorachaAccount) (X : String),
        X ∈ calls.map (fun a => a.id) →
        ((addAll calls initialState).accounts.filter (fun a => a.id == X)).length = 1)
    ∧ (∀ (s : StorachaState) (account : StorachaAccount),
        (∃ a ∈ s.accounts, a.id = account.id) → addAccount s account = s) := by
  constructor
  · intro calls X hX
    have hle : (addAll calls initialState).accounts.countP (fun a => a.id == X) ≤ 1 :=
      addAll_countP_le_one calls initialState (by intro Y; simp [initialState]) X
    have hmem : X ∈ (addAll calls initialState).accounts.map (fun a => a.id) :=
      (addAll_mem_ids calls initialState X).mpr (Or.inr hX)
    obtain ⟨a, ha, hid⟩ := List.mem_map.mp hmem
    have hpos : 0 < (addAll calls initialState).accounts.countP (fun a => a.id == X) :=
      List.countP_pos_iff.mpr ⟨a, ha, by simp [hid]⟩
    have : (addAll calls initialState).accounts.countP (fun a => a.id == X) = 1 := by
      omega
    simpa [List.countP_eq_length_filter] using this
  · intro s account ⟨a, ha, hid⟩
    have hany : s.accounts.any (fun b => b.id == account.id) = true :=
      List.any_eq_true.mpr ⟨a, ha, by simp [hid]⟩
    simp [addAccount, hany]

/-- Witness for C3 at concrete inputs. -/
theorem addAccount_unique_and_idempotent_witness :
    ((addAll [⟨"a", "e1"⟩, ⟨"a", "e2"⟩, ⟨"b", "e3"⟩] initialState).accounts.filter
        (fun a => a.id == "a")).length = 1
    ∧ addAccount { initialState with accounts := [⟨"a", "e1"⟩] } ⟨"a", "e2"⟩
        = { initialState with accounts := [⟨"a", "e1"⟩] } :=
  ⟨addAccount_unique_and_idempotent.1 [⟨"a", "e1"⟩, ⟨"a", "e2"⟩, ⟨"b", "e3"⟩] "a"
      (by decide),
   addAccount_unique_and_idempotent.2 { initialState with accounts := [⟨"a", "e1"⟩] }
      ⟨"a", "e2"⟩ ⟨⟨"a", "e1"⟩, by decide, rfl⟩⟩

/-- C4: `switchAccount` with an identifier absent from the accounts list
records the non-null error `'Account not found'` and changes nothing else:
`currentAccount`, `isAuthenticated`, `selectedSpace`, `spaces`,
`spaceContents` keep their values, and `isLoadingSpaces` is untouched
because the cascading `fetchSpaces` is not triggered. -/
theorem switchAccount_absent (s : StorachaState) (accountId : String)
    (h : ∀ a ∈ s.accounts, a.id ≠ accountId) :
    (switchAccount s accountId).error = some "Account not found"
    ∧ (switchAccount s accountId).currentAccount = s.currentAccount
    ∧ (switchAccount s accountId).isAuthenticated = s.isAuthenticated
    ∧ (switchAccount s accountId).selectedSpace = s.selectedSpace
    ∧ (switchAccount s accountId).spaces = s.spaces
    ∧ (switchAccount s accountId).spaceContents = s.spaceContents
    ∧ (switchAccount s accountId).isLoadingSpaces = s.isLoadingSpaces := by
  have hf : s.accounts.find? (fun a => a.id == accountId) = none := by
    rw [List.find?_eq_none]
    intro a ha
    simpa using h a ha
  simp [switchAccount, hf]

/-- Witness for C4 at a concrete input. -/
theorem switchAccount_absent_witness :
    (switchAccount initialState "acct-1").error = some "Account not found"
    ∧ (switchAccount initialState "acct-1").currentAccount
        = initialState.currentAccount
    ∧ (switchAccount initialState "acct-1").isAuthenticated
        = initialState.isAuthenticated
    ∧ (switchAccount initialState "acct-1").selectedSpace
        = initialState.selectedSpace
    ∧ (switchAccount initialState "acct-1").spaces = initialState.spaces
    ∧ (switchAccount initialState "acct-1").spaceContents
        = initialState.spaceContents
    ∧ (switchAccount initialState "acct-1").isLoadingSpaces
        = initialState.isLoadingSpaces :=
  switchAccount_absent initialState "acct-1"
    (by intro a ha; simp [initialState] at ha)

/-- C5: `logout` empties `spaces`, `spaceContents` and `selectedSpace`,
nulls `currentAccount` and clears `isAuthenticated`, while `accounts`, the
error slot and all loading flags keep their prior values. -/
theorem logout_clears_session (s : StorachaState) :
    (logout s).spaces = [] ∧ (logout s).spaceContents = []
    ∧ (logout s).selectedSpace = none
    ∧ (logout s).currentAccount = none
    ∧ (logout s).isAuthenticated = false
    ∧ (logout s).accounts = s.accounts
    ∧ (logout s).error = s.error
    ∧ (logout s).isLoading = s.isLoading
    ∧ (logout s).isLoadingSpaces = s.isLoadingSpaces
    ∧ (logout s).isLoadingContents = s.isLoadingContents := by
  simp [logout]

/-- C6: `removeAccount(accountId)` filters the identifier out of the
accounts list; when the removed identifier was the current account this
cascades into an implicit logout (current account, authenticated flag,
selection, spaces and contents cleared); when it was not, every field but
the accounts list is unchanged. -/
theorem removeAccount_spec (s : StorachaState) (accountId : String) :
    (removeAccount s accountId).accounts
        = s.accounts.filter (fun a => a.id != accountId)
    ∧ ((∃ a, s.currentAccount = some a ∧ a.id = accountId) →
        (removeAccount s accountId).currentAccount = none
        ∧ (removeAccount s accountId).isAuthenticated = false
        ∧ (removeAccount s accountId).selectedSpace = none
        ∧ (removeAccount s accountId).spaces = []
        ∧ (removeAccount s accountId).spaceContents = [])
    ∧ ((∀ a, s.currentAccount = some a → a.id ≠ accountId) →
        removeAccount s accountId
          = { s with accounts := s.accounts.filter (fun a => a.id != accountId) }) := by
  refine ⟨rfl, ?_, ?_⟩
  · rintro ⟨a, ha, hid⟩
    simp [removeAccount, ha, hid]
  · intro h
    cases hc : s.currentAccount with
    | none => simp [removeAccount, hc]
    | some a =>
      have hne : a.id ≠ accountId := h a hc
      simp [removeAccount, hc, hne]

/-- Witness for C6 at concrete inputs: removing the current account, and
removing a different account. -/
theorem removeAccount_spec_witness :
    (removeAccount
        { initialState with
          currentAccount := some ⟨"a", "e"⟩
          isAuthenticated := true
          accounts := [⟨"a", "e"⟩, ⟨"b", "f"⟩] } "a").currentAccount = none
    ∧ removeAccount
        { initialState with
          currentAccount := some ⟨"a", "e"⟩
          isAuthenticated := true
          accounts := [⟨"a", "e"⟩, ⟨"b", "f"⟩] } "b"
      = { initialState with
          currentAccount := some ⟨"a", "e"⟩
          isAuthenticated := true
          accounts :=
            List.filter (fun a => a.id != "b") [⟨"a", "e"⟩, ⟨"b", "f"⟩] } := by
  constructor
  · exact (removeAccount_spec
      { initialState with
        currentAccount := some ⟨"a", "e"⟩
        isAuthenticated := true
        accounts := [⟨"a", "e"⟩, ⟨"b", "f"⟩] } "a").2.1 ⟨⟨"a", "e"⟩, rfl, rfl⟩ |>.1
  · exact (removeAccount_spec
      { initialState with
        currentAccount := some ⟨"a", "e"⟩
        isAuthenticated := true
        accounts := [⟨"a", "e"⟩, ⟨"b", "f"⟩] } "b").2.2
      (by intro a ha; simp only [Option.some.injEq] at ha; subst ha; decide)

lemma recGet_recDelete (m : ContentsMap) (k : String) :
    recGet (recDelete m k) k = none := by
  have hf : (recDelete m k).find? (fun p => p.1 == k) = none := by
    rw [List.find?_eq_none]
    intro p hp
    have h2 := (List.mem_filter.mp hp).2
    simpa using h2
  simp [recGet, hf]

/-- C7: after `deleteSpace(spaceId)` the space is gone from `spaces`, the
`spaceContents` map no longer has a key `spaceId`, and the selection is
nulled exactly when the deleted space was the selected one (otherwise it is
unchanged). -/
theorem deleteSpace_spec (s : StorachaState) (spaceId : String) :
    (deleteSpace s spaceId).spaces = s.spaces.filter (fun sp => sp.id != spaceId)
    ∧ recGet (deleteSpace s spaceId).spaceContents spaceId = none
    ∧ (∀ sp, s.selectedSpace = some sp → sp.id = spaceId →
        (deleteSpace s spaceId).selectedSpace = none)
    ∧ (∀ sp, s.selectedSpace = some sp → sp.id ≠ spaceId →
        (deleteSpace s spaceId).selectedSpace = s.selectedSpace)
    ∧ (s.selectedSpace = none → (deleteSpace s spaceId).selectedSpace = none) := by
  refine ⟨rfl, recGet_recDelete _ _, ?_, ?_, ?_⟩
  · intro sp hsel hid
    simp [deleteSpace, hsel, hid]
  · intro sp hsel hid
    simp [deleteSpace, hsel, hid]
  · intro hsel
    simp [deleteSpace, hsel]

/-- Witness for C7 at a concrete input where the deleted space is the
selected one and has a contents entry. -/
theorem deleteSpace_spec_witness :
    (deleteSpace
        { initialState with
          spaces := [⟨"s1", "Team"⟩]
          selectedSpace := some ⟨"s1", "Team"⟩
          spaceContents := [("s1", [])] } "s1").spaces
      = List.filter (fun sp => sp.id != "s1") [(⟨"s1", "Team"⟩ : StorachaSpace)]
    ∧ recGet (deleteSpace
        { initialState with
          spaces := [⟨"s1", "Team"⟩]
          selectedSpace := some ⟨"s1", "Team"⟩
          spaceContents := [("s1", [])] } "s1").spaceContents "s1" = none
    ∧ (deleteSpace
        { initialState with
          spaces := [⟨"s1", "Team"⟩]
          selectedSpace := some ⟨"s1", "Team"⟩
          spaceContents := [("s1", [])] } "s1").selectedSpace = none := by
  refine ⟨(deleteSpace_spec _ "s1").1, (deleteSpace_spec _ "s1").2.1, ?_⟩
  exact (deleteSpace_spec
    { initialState with
      spaces := [⟨"s1", "Team"⟩]
      selectedSpace := some ⟨"s1", "Team"⟩
      spaceContents := [("s1", [])] } "s1").2.2.1 ⟨"s1", "Team"⟩ rfl rfl

/-- The persisted subset produced by the store's `partialize` option
(`{currentAccount, isAuthenticated, accounts, selectedSpace}`). -/
structure PersistedState where
  currentAccount : Option StorachaAccount
  isAuthenticated : Bool
  accounts : List StorachaAccount
  selectedSpace : Option StorachaSpace
deriving DecidableEq, Repr

/-- The `partialize` projection of the source (the options object of the
`persist` wrapper): only the four authentication fields are persisted. -/
def partialize (s : StorachaState) : PersistedState where
  currentAccount := s.currentAccount
  isAuthenticated := s.isAuthenticated
  accounts := s.accounts
  selectedSpace := s.selectedSpace

/-- Modelled from the spec: reloading merges the persisted record over the
defaults — "loading flags and error message are transient (reset to
defaults on reload) and never persisted".  The merge itself is performed by
the zustand `persist` middleware (an external dependency, not code under
src/), whose default shallow merge overlays the persisted keys on the
initial state. -/
def rehydrate (p : PersistedState) : StorachaState :=
  { initialState with
    currentAccount := p.currentAccount
    isAuthenticated := p.isAuthenticated
    accounts := p.accounts
    selectedSpace := p.selectedSpace }

/-- C8: persisting through `partialize` and reloading restores
`currentAccount`, `isAuthenticated`, `accounts` and `selectedSpace`
exactly, while the error slot, the three loading flags, `spaces` and
`spaceContents` take their default initial values. -/
theorem persist_round_trip (s : StorachaState) :
    (rehydrate (partialize s)).currentAccount = s.currentAccount
    ∧ (rehydrate (partialize s)).isAuthenticated = s.isAuthenticated
    ∧ (rehydrate (partialize s)).accounts = s.accounts
    ∧ (rehydrate (partialize s)).selectedSpace = s.selectedSpace
    ∧ (rehydrate (partialize s)).error = none
    ∧ (rehydrate (partialize s)).isLoading = false
    ∧ (rehydrate (partialize s)).isLoadingSpaces = false
    ∧ (rehydrate (partialize s)).isLoadingContents = false
    ∧ (rehydrate (partialize s)).spaces = []
    ∧ (rehydrate (partialize s)).spaceContents = [] := by
  simp [rehydrate, partialize, initialState]

/-- C9: the scenario login → createSpace → selectSpace → uploadToSpace
(each asynchronous step resolved before the next) leaves
`spaceContents["space-1"]` holding exactly one entry, named `doc.txt` with
size 10. -/
theorem scenario_upload_contents :
    ((recGet (StorachaState.spaceContents (run
        [.actLogin "a@x.com" "account-1",
         .actCreateSpace "Team" "space-1",
         .actSelectSpace (some ⟨"space-1", "Team"⟩),
         .actUploadToSpace "space-1" ⟨"doc.txt", 10, "text/plain"⟩ "content-1"]))
        "space-1").getD []).map (fun c => (c.name, c.size))
      = [("doc.txt", some 10)] := by
  rfl

/-- C10: with no current account, `deleteSpace` does not record the
`'No account selected'` precondition error (its error slot ends up null)
and still removes the space and its contents key, while `fetchSpaces` and
`createSpace` in the same state record exactly that error and change
nothing else (in particular the space list stays put). -/
theorem deleteSpace_no_account_guard (s : StorachaState)
    (spaceId name genId : String) (h : s.currentAccount = none) :
    (deleteSpace s spaceId).error = none
    ∧ (deleteSpace s spaceId).spaces
        = s.spaces.filter (fun sp => sp.id != spaceId)
    ∧ recGet (deleteSpace s spaceId).spaceContents spaceId = none
    ∧ fetchSpaces s = { s with error := some "No account selected" }
    ∧ createSpace s name genId = { s with error := some "No account selected" } := by
  refine ⟨rfl, rfl, recGet_recDelete _ _, ?_, ?_⟩
  · simp [fetchSpaces, h]
  · simp [createSpace, h]

/-- Witness for C10 at a concrete input. -/
theorem deleteSpace_no_account_guard_witness :
    (deleteSpace
        { initialState with
          spaces := [⟨"s1", "Team"⟩]
          spaceContents := [("s1", [])] } "s1").error = none
    ∧ (deleteSpace
        { initialState with
          spaces := [⟨"s1", "Team"⟩]
          spaceContents := [("s1", [])] } "s1").spaces
        = List.filter (fun sp => sp.id != "s1") [(⟨"s1", "Team"⟩ : StorachaSpace)]
    ∧ recGet (deleteSpace
        { initialState with
          spaces := [⟨"s1", "Team"⟩]
          spaceContents := [("s1", [])] } "s1").spaceContents "s1" = none
    ∧ fetchSpaces
        { initialState with
          spaces := [⟨"s1", "Team"⟩]
          spaceContents := [("s1", [])] }
      = { initialState with
          spaces := [⟨"s1", "Team"⟩]
          spaceContents := [("s1", [])]
          error := some "No account selected" }
    ∧ createSpace
        { initialState with
          spaces := [⟨"s1", "Team"⟩]
          spaceContents := [("s1", [])] } "Team" "space-9"
      = { initialState with
          spaces := [⟨"s1", "Team"⟩]
          spaceContents := [("s1", [])]
          error := some "No account selected" } :=
  deleteSpace_no_account_guard
    { initialState with
      spaces := [⟨"s1", "Team"⟩]
      spaceContents := [("s1", [])] } "s1" "Team" "space-9" rfl

/-- C2 counterexample: a `login` invocation that completes through the
`catch` branch while an earlier login's account is still current ends with
BOTH `currentAccount` and `error` non-null — the `catch` branch of the
source only sets `isLoading: false` and `error`, and does not clear
`currentAccount` — so "exactly one of the two holds" fails. -/
theorem login_exactly_one_counterexample :
    StorachaState.currentAccount
        (loginCatch (login initialState "a@x.com" "account-1") "Login failed") ≠ none
    ∧ StorachaState.error
        (loginCatch (login initialState "a@x.com" "account-1") "Login failed") ≠ none := by
  decide

/-- C2 (amended): after any completed `login` invocation `isLoading` is
false; completion by success leaves `currentAccount` non-null and `error`
null, completion by failure leaves `error` non-null and `currentAccount`
at its prior value — hence when `login` starts from a state with no
current account, exactly one of {currentAccount set, error set} holds on
either completion. -/
theorem login_completion_spec (s : StorachaState) (email genId msg : String) :
    ((login s email genId).isLoading = false
      ∧ (login s email genId).currentAccount ≠ none
      ∧ (login s email genId).error = none)
    ∧ ((loginCatch s msg).isLoading = false
      ∧ (loginCatch s msg).error ≠ none
      ∧ (loginCatch s msg).currentAccount = s.currentAccount)
    ∧ (s.currentAccount = none →
        (loginCatch s msg).currentAccount = none
        ∧ (loginCatch s msg).error ≠ none) := by
  refine ⟨⟨rfl, by simp [login], rfl⟩, ⟨rfl, by simp [loginCatch], rfl⟩, ?_⟩
  intro h
  exact ⟨by simpa [loginCatch] using h, by simp [loginCatch]⟩

/-- Witness for the amended C2 at a concrete input. -/
theorem login_completion_spec_witness :
    (loginCatch initialState "boom").currentAccount = none
    ∧ (loginCatch initialState "boom").error ≠ none :=
  (login_completion_spec initialState "a@x.com" "account-1" "boom").2.2 rfl
